import Mathlib

/-!
Verification of the benchmark-harness specification of the `deopt` repository
against a shallow embedding of its code.

The repository's demonstration scripts (`src/examples/*.ts` and the unnamed
source parts) are embedded directly.  The benchmark harness (`run`, `compare`)
described by the specification has no implementation under `src/`, so it is
modelled from the specification's own words in the `Harness` namespace below.
-/

/-- Decidable equality on `Except`, so that concrete harness runs can be
evaluated by `decide`. -/
instance exceptDecEq {ε α : Type} [DecidableEq ε] [DecidableEq α] :
    DecidableEq (Except ε α) := fun x y =>
  match x, y with
  | .ok a, .ok b => decidable_of_iff (a = b) (by simp)
  | .error a, .error b => decidable_of_iff (a = b) (by simp)
  | .ok _, .error _ => isFalse (by simp)
  | .error _, .ok _ => isFalse (by simp)

namespace Harness

/-- Modelled from the spec: `BenchmarkResult` is `{ name, elapsedTime }`,
elapsed time a floating-point duration in milliseconds (embedded as `ℚ`). -/
structure BenchmarkResult where
  name : String
  elapsedTime : ℚ
  deriving DecidableEq

/-- Modelled from the spec: the world an operation acts on.  `time` is the
reading the monotonic wall-clock source `now()` would return; `state` is
whatever shared state the measured operation mutates. -/
structure World (σ : Type) where
  time : ℚ
  state : σ
  deriving DecidableEq

/-- Modelled from the spec's error taxonomy: `InvalidConfiguration` (iteration
count < 1, or comparison on an empty sequence) and `OperationFailure`
(the measured operation threw; the underlying error is carried verbatim). -/
inductive HarnessError (ε : Type) where
  | invalidConfiguration
  | operationFailure (err : ε)
  deriving DecidableEq

/-- Modelled from the spec: the tight sequential timed loop, invoking the
operation the given number of times; an exception aborts the loop. -/
def timedLoop {σ ε : Type} (op : World σ → Except ε (World σ)) :
    Nat → World σ → Except ε (World σ)
  | 0, w => .ok w
  | n + 1, w => (op w).bind (timedLoop op n)

/-- Modelled from the spec: `run(name, operation, iterations)`.
An iteration count < 1 signals `InvalidConfiguration` before anything runs.
Otherwise the operation is invoked once untimed (warm-up), the start
timestamp is read, the operation is invoked `iterations` times, the end
timestamp is read, and `elapsed = end - start`.  An exception from the
operation propagates; no `BenchmarkResult` is produced then. -/
def run {σ ε : Type} (name : String) (op : World σ → Except ε (World σ))
    (iterations : Nat) (w : World σ) :
    Except (HarnessError ε) (BenchmarkResult × World σ) :=
  if iterations < 1 then .error .invalidConfiguration
  else
    match op w with
    | .error e => .error (.operationFailure e)
    | .ok w1 =>
      match timedLoop op iterations w1 with
      | .error e => .error (.operationFailure e)
      | .ok w2 => .ok ({ name := name, elapsedTime := w2.time - w1.time }, w2)

/-- Modelled from the spec: the qualitative bucket for a time ratio, with
inclusive upper bounds 1.3 / 2.0 / 3.0 / 5.0. -/
def ratingBucket (q : ℚ) : String :=
  if q ≤ 13 / 10 then "excellent"
  else if q ≤ 2 then "good"
  else if q ≤ 3 then "fair"
  else if q ≤ 5 then "poor"
  else "very poor"

/-- A signed relative percentage note: "% slower" or "% faster". -/
inductive Note where
  | slower (percent : ℚ)
  | faster (percent : ℚ)
  deriving DecidableEq

/-- Modelled from the spec: if ratio > 1 report `(ratio-1)*100` percent slower,
if ratio < 1 report `(1-ratio)*100` percent faster, if ratio = 1 no note. -/
def percentNote (q : ℚ) : Option Note :=
  if 1 < q then some (.slower ((q - 1) * 100))
  else if q < 1 then some (.faster ((1 - q) * 100))
  else none

/-- One line of the comparison report, in structured form: label, elapsed
time, qualitative bucket, and the relative percentage when applicable. -/
structure ReportEntry where
  name : String
  elapsedTime : ℚ
  bucket : String
  note : Option Note
  deriving DecidableEq

/-- Modelled from the spec: `compare` over a non-empty ordered sequence of
results.  The first element is the baseline (ratio 1.0 for itself, hence no
percentage note); every later entry is classified by its ratio to the
baseline's elapsed time.  An empty sequence is `InvalidConfiguration`. -/
def compare (results : List BenchmarkResult) :
    Except (HarnessError Unit) (List ReportEntry) :=
  match results with
  | [] => .error .invalidConfiguration
  | baseline :: rest =>
    .ok ({ name := baseline.name, elapsedTime := baseline.elapsedTime,
           bucket := ratingBucket 1, note := none } ::
         rest.map (fun r =>
           let q := r.elapsedTime / baseline.elapsedTime
           { name := r.name, elapsedTime := r.elapsedTime,
             bucket := ratingBucket q, note := percentNote q }))

/-- Wraps an operation with an invocation counter: the wrapped state carries
the running count of calls, incremented on every successful invocation. -/
def instrument {σ ε : Type} (op : World σ → Except ε (World σ))
    (w : World (σ × Nat)) : Except ε (World (σ × Nat)) :=
  match op ⟨w.time, w.state.1⟩ with
  | .error e => .error e
  | .ok w1 => .ok ⟨w1.time, (w1.state, w.state.2 + 1)⟩

/-- A deterministic operation: each call advances the clock by `d s` and the
state by `f`, and never throws. -/
def pureOp {σ : Type} (f : σ → σ) (d : σ → ℚ) (w : World σ) :
    Except Unit (World σ) :=
  .ok ⟨w.time + d w.state, f w.state⟩

end Harness

namespace JS

/-- A JavaScript primitive value as used by the repository's scripts:
a (double-precision but integer-valued) number, a string, `null`,
`undefined`, or `NaN`. -/
inductive JSVal where
  | num (n : Int)
  | str (s : String)
  | null
  | undefined
  | nan
  deriving DecidableEq

/-- The decimal string a JavaScript engine prints for a natural number,
i.e. `n.toString()`: the base-10 digits, most significant first. -/
def natToDecString (n : Nat) : String :=
  if n = 0 then "0"
  else String.mk ((Nat.digits 10 n).reverse.map Nat.digitChar)

/-- Value of one decimal digit character, `none` on a non-digit. -/
def decDigit? (c : Char) : Option Nat :=
  if c.isDigit then some (c.toNat - 48) else none

/-- JavaScript `ToNumber` on the strings the scripts construct: the empty
string is 0, a canonical decimal numeral is its value, anything else is
`NaN` (`none`).  Signed, fractional, hex and padded forms never occur in
this repository. -/
def strToNumber? (s : String) : Option Int :=
  if s.data.isEmpty then some 0
  else (s.data.mapM decDigit?).map (fun ds => (Nat.ofDigits 10 ds.reverse : Int))

/-- JavaScript `ToString` on the primitive values above. -/
def toJSString : JSVal → String
  | .num a => if 0 ≤ a then natToDecString a.toNat else "-" ++ natToDecString (-a).toNat
  | .str s => s
  | .null => "null"
  | .undefined => "undefined"
  | .nan => "NaN"

/-- JavaScript `+` on the primitive values above: if either operand is a
string, the operands are converted with `ToString` and concatenated;
otherwise both are converted with `ToNumber` (`null` is 0, `undefined` and
`NaN` are `NaN`) and added numerically. -/
def jsAdd : JSVal → JSVal → JSVal
  | .str s, y => .str (s ++ toJSString y)
  | x, .str t => .str (toJSString x ++ t)
  | .num a, .num b => .num (a + b)
  | .num a, .null => .num a
  | .null, .num b => .num b
  | .null, .null => .num 0
  | _, _ => .nan

/-- From `src/unnamed/part_002`: `addNumbers(x: any, y: any): any` returns
`x + y` with JavaScript's untyped `+`. -/
def addNumbers (x y : JSVal) : JSVal := jsAdd x y

/-- JavaScript loose equality `==` on the primitive values above: numbers
and strings compare numerically after `ToNumber` of the string, `null` and
`undefined` loosely equal only each other, and `NaN` equals nothing. -/
def looseEq : JSVal → JSVal → Bool
  | .num a, .num b => a == b
  | .str s, .str t => s == t
  | .num a, .str t =>
    match strToNumber? t with
    | some m => a == m
    | none => false
  | .str s, .num b =>
    match strToNumber? s with
    | some m => m == b
    | none => false
  | .null, .null => true
  | .undefined, .undefined => true
  | .null, .undefined => true
  | .undefined, .null => true
  | _, _ => false

/-- JavaScript strict equality `===` on the primitive values above: equal
only at the same type with equal value; `NaN` equals nothing. -/
def strictEq : JSVal → JSVal → Bool
  | .num a, .num b => a == b
  | .str s, .str t => s == t
  | .null, .null => true
  | .undefined, .undefined => true
  | _, _ => false

end JS

namespace Part005

open JS

/-- From `src/unnamed/part_005`, section 5: the element pushed onto
`mixedArray` at index `i`: a number when `i % 4 === 0`, its decimal string
when `i % 4 === 1`, `null` when `i % 4 === 2`, `undefined` otherwise. -/
def mixedElem (i : Nat) : JSVal :=
  if i % 4 = 0 then .num i
  else if i % 4 = 1 then .str (natToDecString i)
  else if i % 4 = 2 then .null
  else .undefined

/-- From `src/unnamed/part_005`: the 100000-element `mixedArray`. -/
def mixedArray : List JSVal := (List.range 100000).map mixedElem

/-- From `src/unnamed/part_005`: the final value of `looseCount`, the number
of iterations `i < 5000000` with `mixedArray[i % mixedArray.length] == 0`. -/
def looseCount : Nat :=
  (List.range 5000000).countP
    (fun i => looseEq (mixedArray.getD (i % mixedArray.length) .undefined) (.num 0))

/-- From `src/unnamed/part_005`: the final value of `strictCount`, the number
of iterations `i < 5000000` with `mixedArray[i % mixedArray.length] === 0`. -/
def strictCount : Nat :=
  (List.range 5000000).countP
    (fun i => strictEq (mixedArray.getD (i % mixedArray.length) .undefined) (.num 0))

end Part005

namespace Optimization

/-- From `src/src/examples/optimization.ts`: the monomorphic addition
`addNumbersMonomorphic(x, y) = x + y`, only ever applied to integers whose
sums stay far below `2^53`, so exact natural-number addition embeds it. -/
def addNumbersMonomorphic (x y : Nat) : Nat := x + y

/-- From `src/src/examples/optimization.ts`: the value of `sum1` after `k`
iterations of the timed loop `sum1 += addNumbersMonomorphic(i, i + 1)`. -/
def monoLoop : Nat → Nat
  | 0 => 0
  | k + 1 => monoLoop k + addNumbersMonomorphic k (k + 1)

end Optimization

namespace JS

lemma decDigit?_digitChar (d : Nat) (hd : d < 10) :
    decDigit? (Nat.digitChar d) = some d := by
  interval_cases d <;> decide

lemma mapM_digitChar (l : List Nat) (h : ∀ d ∈ l, d < 10) :
    (l.map Nat.digitChar).mapM decDigit? = some l := by
  induction l with
  | nil => rfl
  | cons a as ih =>
    simp only [List.map_cons, List.mapM_cons, decDigit?_digitChar a (h a (by simp)),
      ih (fun d hd => h d (by simp [hd]))]
    rfl

lemma strToNumber?_natToDecString (n : Nat) :
    strToNumber? (natToDecString n) = some (n : Int) := by
  by_cases h0 : n = 0
  · subst h0; decide
  · have hne : Nat.digits 10 n ≠ [] := Nat.digits_ne_nil_iff_ne_zero.mpr h0
    simp only [natToDecString, h0, if_false, strToNumber?]
    have hnonempty : ¬((Nat.digits 10 n).reverse.map Nat.digitChar).isEmpty := by
      simp [List.isEmpty_iff, hne]
    rw [if_neg hnonempty]
    have hlt : ∀ d ∈ (Nat.digits 10 n).reverse, d < 10 := by
      intro d hd
      exact Nat.digits_lt_base (by norm_num) (List.mem_reverse.mp hd)
    rw [mapM_digitChar _ hlt]
    simp
    exact_mod_cast Nat.ofDigits_digits 10 n

end JS

namespace Part005

open JS

lemma countP_range_self (m : Nat) (hm : 0 < m) :
    (List.range m).countP (fun i => decide (i % m = 0)) = 1 := by
  obtain ⟨m1, rfl⟩ := Nat.exists_eq_succ_of_ne_zero hm.ne'
  rw [List.range_succ_eq_map, List.countP_cons]
  simp only [List.countP_map]
  rw [List.countP_eq_zero.mpr]
  · simp
  · intro a ha
    have : a + 1 < m1 + 1 := by simpa using List.mem_range.mp ha
    simp [Function.comp_apply, Nat.succ_eq_add_one, Nat.mod_eq_of_lt this]

lemma countP_range_mod (m k : Nat) (hm : 0 < m) :
    (List.range (k * m)).countP (fun i => decide (i % m = 0)) = k := by
  induction k with
  | zero => simp
  | succ k ih =>
    have hsplit : (k + 1) * m = k * m + m := by ring
    rw [hsplit, List.range_add, List.countP_append, ih]
    simp only [List.countP_map]
    have hcongr : ∀ a ∈ List.range m,
        (((fun i => decide (i % m = 0)) ∘ (fun i => k * m + i)) a = true)
          ↔ ((fun i => decide (i % m = 0)) a = true) := by
      intro a _
      have hmod : (k * m + a) % m = a % m := by
        rw [Nat.mul_comm]; exact Nat.mul_add_mod m k a
      simp only [Function.comp_apply, decide_eq_true_eq, hmod]
    rw [List.countP_congr hcongr, countP_range_self m hm]

lemma looseEq_mixedElem (j : Nat) :
    looseEq (mixedElem j) (.num 0) = decide (j = 0) := by
  have h4 : j % 4 = 0 ∨ j % 4 = 1 ∨ j % 4 = 2 ∨ j % 4 = 3 := by omega
  rcases h4 with h | h | h | h
  · by_cases hj : j = 0
    · subst hj; decide
    · have hjz : (j : Int) ≠ 0 := by exact_mod_cast hj
      simp [mixedElem, h, looseEq, hj, hjz]
  · have hj : j ≠ 0 := by omega
    simp [mixedElem, h, looseEq, strToNumber?_natToDecString, hj]
  · have hj : j ≠ 0 := by omega
    simp [mixedElem, h, looseEq, hj]
  · have hj : j ≠ 0 := by omega
    simp [mixedElem, h, looseEq, hj]

lemma strictEq_mixedElem (j : Nat) :
    strictEq (mixedElem j) (.num 0) = decide (j = 0) := by
  have h4 : j % 4 = 0 ∨ j % 4 = 1 ∨ j % 4 = 2 ∨ j % 4 = 3 := by omega
  rcases h4 with h | h | h | h
  · by_cases hj : j = 0
    · subst hj; decide
    · have hjz : (j : Int) ≠ 0 := by exact_mod_cast hj
      simp [mixedElem, h, strictEq, hj, hjz]
  · have hj : j ≠ 0 := by omega
    simp [mixedElem, h, strictEq, hj]
  · have hj : j ≠ 0 := by omega
    simp [mixedElem, h, strictEq, hj]
  · have hj : j ≠ 0 := by omega
    simp [mixedElem, h, strictEq, hj]

lemma getD_mixedArray (i : Nat) :
    mixedArray.getD (i % mixedArray.length) .undefined = mixedElem (i % 100000) := by
  have hlen : mixedArray.length = 100000 := by simp [mixedArray]
  rw [hlen]
  have hlt : i % 100000 < 100000 := Nat.mod_lt _ (by norm_num)
  rw [mixedArray, List.getD_eq_getElem?_getD, List.getElem?_map, List.getElem?_range hlt]
  rfl

lemma looseCount_eq : looseCount = 50 := by
  unfold looseCount
  have hcongr : ∀ i ∈ List.range 5000000,
      (looseEq (mixedArray.getD (i % mixedArray.length) .undefined) (.num 0) = true)
        ↔ (decide (i % 100000 = 0) = true) := by
    intro i _
    rw [getD_mixedArray i, looseEq_mixedElem]
  rw [List.countP_congr hcongr]
  have h : (5000000 : Nat) = 50 * 100000 := by norm_num
  rw [h, countP_range_mod 100000 50 (by norm_num)]

lemma strictCount_eq : strictCount = 50 := by
  unfold strictCount
  have hcongr : ∀ i ∈ List.range 5000000,
      (strictEq (mixedArray.getD (i % mixedArray.length) .undefined) (.num 0) = true)
        ↔ (decide (i % 100000 = 0) = true) := by
    intro i _
    rw [getD_mixedArray i, strictEq_mixedElem]
  rw [List.countP_congr hcongr]
  have h : (5000000 : Nat) = 50 * 100000 := by norm_num
  rw [h, countP_range_mod 100000 50 (by norm_num)]

end Part005

namespace Harness

/-- The identity operation: succeeds, changes nothing, takes no time. -/
def idOp {σ : Type} (w : World σ) : Except Unit (World σ) := .ok w

/-- An operation that always throws the given error. -/
def throwOp {σ ε : Type} (e : ε) (_ : World σ) : Except ε (World σ) := .error e

lemma instrument_count {σ ε : Type} (op : World σ → Except ε (World σ))
    (w w1 : World (σ × Nat)) (h : instrument op w = .ok w1) :
    w1.state.2 = w.state.2 + 1 := by
  unfold instrument at h
  cases hop : op ⟨w.time, w.state.1⟩ with
  | error e => rw [hop] at h; exact Except.noConfusion h
  | ok w2 =>
    rw [hop] at h
    injection h with h1
    rw [← h1]

lemma timedLoop_instrument_count {σ ε : Type} (op : World σ → Except ε (World σ)) :
    ∀ (n : Nat) (w w2 : World (σ × Nat)),
      timedLoop (instrument op) n w = .ok w2 → w2.state.2 = w.state.2 + n := by
  intro n
  induction n with
  | zero =>
    intro w w2 h
    injection h with h1
    rw [← h1, Nat.add_zero]
  | succ n ih =>
    intro w w2 h
    simp only [timedLoop] at h
    cases hop : instrument op w with
    | error e => rw [hop] at h; exact Except.noConfusion h
    | ok w1 =>
      rw [hop] at h
      have h1 : timedLoop (instrument op) n w1 = .ok w2 := h
      have hc := instrument_count op w w1 hop
      have hl := ih w1 w2 h1
      omega

lemma timedLoop_pureOp {σ : Type} (f : σ → σ) (d : σ → ℚ) :
    ∀ (n : Nat) (w : World σ),
      timedLoop (pureOp f d) n w =
        .ok ⟨w.time + ∑ i ∈ Finset.range n, d (f^[i] w.state), f^[n] w.state⟩ := by
  intro n
  induction n with
  | zero => intro w; simp [timedLoop]
  | succ n ih =>
    intro w
    simp only [timedLoop, pureOp, Except.bind]
    rw [ih]
    simp only [Except.ok.injEq, World.mk.injEq]
    constructor
    · rw [Finset.sum_range_succ']
      simp only [Function.iterate_succ_apply, Function.iterate_zero, id_eq]
      ring
    · exact (Function.iterate_succ_apply f n w.state).symm

lemma timedLoop_time_mono {σ ε : Type} (op : World σ → Except ε (World σ))
    (hmono : ∀ u u1, op u = .ok u1 → u.time ≤ u1.time) :
    ∀ (n : Nat) (w w2 : World σ), timedLoop op n w = .ok w2 → w.time ≤ w2.time := by
  intro n
  induction n with
  | zero =>
    intro w w2 h
    injection h with h1
    rw [← h1]
  | succ n ih =>
    intro w w2 h
    simp only [timedLoop] at h
    cases hop : op w with
    | error e => rw [hop] at h; exact Except.noConfusion h
    | ok w1 =>
      rw [hop] at h
      exact le_trans (hmono w w1 hop) (ih w1 w2 h)

lemma run_def_ok {σ ε : Type} (name : String) (op : World σ → Except ε (World σ))
    (n : Nat) (w w1 w2 : World σ) (hn : ¬ n < 1) (hwarm : op w = .ok w1)
    (hloop : timedLoop op n w1 = .ok w2) :
    run name op n w = .ok ({ name := name, elapsedTime := w2.time - w1.time }, w2) := by
  unfold run
  rw [if_neg hn]
  simp only [hwarm, hloop]

lemma run_def_warmfail {σ ε : Type} (name : String) (op : World σ → Except ε (World σ))
    (n : Nat) (w : World σ) (e : ε) (hn : ¬ n < 1) (hwarm : op w = .error e) :
    run name op n w = .error (.operationFailure e) := by
  unfold run
  rw [if_neg hn]
  simp only [hwarm]

lemma run_def_loopfail {σ ε : Type} (name : String) (op : World σ → Except ε (World σ))
    (n : Nat) (w w1 : World σ) (e : ε) (hn : ¬ n < 1) (hwarm : op w = .ok w1)
    (hloop : timedLoop op n w1 = .error e) :
    run name op n w = .error (.operationFailure e) := by
  unfold run
  rw [if_neg hn]
  simp only [hwarm, hloop]

end Harness

namespace Optimization

lemma monoLoop_sq (k : Nat) : monoLoop k = k ^ 2 := by
  induction k with
  | zero => rfl
  | succ k ih =>
    simp only [monoLoop, addNumbersMonomorphic, ih]
    ring

end Optimization

/-- C1: for every name, every operation and every iteration count n ≥ 1,
when `run` completes it has invoked the operation exactly n + 1 times in
total: one warm-up call before the start timestamp plus n timed calls. -/
theorem run_invokes_op_n_plus_one_times {σ ε : Type} (name : String)
    (op : Harness.World σ → Except ε (Harness.World σ)) (n : Nat)
    (w : Harness.World (σ × Nat)) (r : Harness.BenchmarkResult)
    (w2 : Harness.World (σ × Nat)) (hn : 1 ≤ n)
    (h : Harness.run name (Harness.instrument op) n w = .ok (r, w2)) :
    w2.state.2 = w.state.2 + (n + 1) := by
  unfold Harness.run at h
  rw [if_neg (by omega)] at h
  cases hop : Harness.instrument op w with
  | error e => rw [hop] at h; exact Except.noConfusion h
  | ok w1 =>
    rw [hop] at h
    simp only [] at h
    cases hloop : Harness.timedLoop (Harness.instrument op) n w1 with
    | error e => rw [hloop] at h; exact Except.noConfusion h
    | ok w3 =>
      rw [hloop] at h
      injection h with h1
      have hw : w3 = w2 := congrArg Prod.snd h1
      have hc := Harness.instrument_count op w w1 hop
      have hl := Harness.timedLoop_instrument_count op n w1 w3 hloop
      subst hw
      omega

/-- C1 witness: with the instrumented identity operation and n = 1, `run`
succeeds and the invocation counter ends at 0 + (1 + 1) = 2. -/
theorem run_invokes_op_n_plus_one_times_witness :
    Harness.run "w" (Harness.instrument Harness.idOp) 1
        (⟨0, ((), 0)⟩ : Harness.World (Unit × Nat))
      = .ok ({ name := "w", elapsedTime := 0 }, ⟨0, ((), 2)⟩) ∧
    (⟨0, ((), 2)⟩ : Harness.World (Unit × Nat)).state.2
      = (⟨0, ((), 0)⟩ : Harness.World (Unit × Nat)).state.2 + (1 + 1) := by
  have hrun : Harness.run "w" (Harness.instrument Harness.idOp) 1
      (⟨0, ((), 0)⟩ : Harness.World (Unit × Nat))
      = .ok ({ name := "w", elapsedTime := 0 }, ⟨0, ((), 2)⟩) := by
    simp only [Harness.run, Harness.instrument, Harness.idOp, Harness.timedLoop,
      Except.bind]
    norm_num
  exact ⟨hrun, run_invokes_op_n_plus_one_times "w" Harness.idOp 1 _ _ _
    (by omega) hrun⟩

/-- C2: for every deterministic operation (state step `f`, per-call duration
`d`) and every n ≥ 1, the elapsed time of the result of `run` is the sum of
the durations of the n timed invocations only; the whole wall-clock advance
is the warm-up call's cost `d s` plus that elapsed time, so the warm-up
call is excluded from `elapsedTime` because the start timestamp is read
only after it completed. -/
theorem run_elapsed_excludes_warmup {σ : Type} (name : String) (f : σ → σ)
    (d : σ → ℚ) (n : Nat) (t : ℚ) (s : σ) (hn : 1 ≤ n) :
    Harness.run name (Harness.pureOp f d) n ⟨t, s⟩ =
      .ok ({ name := name,
             elapsedTime := ∑ i ∈ Finset.range n, d (f^[i + 1] s) },
           ⟨t + (d s + ∑ i ∈ Finset.range n, d (f^[i + 1] s)), f^[n + 1] s⟩) ∧
    t + (d s + ∑ i ∈ Finset.range n, d (f^[i + 1] s))
      = t + ∑ i ∈ Finset.range (n + 1), d (f^[i] s) := by
  have hsum : ∑ i ∈ Finset.range (n + 1), d (f^[i] s)
      = d s + ∑ i ∈ Finset.range n, d (f^[i + 1] s) := by
    rw [Finset.sum_range_succ']
    simp only [Function.iterate_zero, id_eq]
    ring
  refine ⟨?_, by rw [hsum]⟩
  have hwarm : Harness.pureOp f d ⟨t, s⟩ = .ok ⟨t + d s, f s⟩ := rfl
  have hloop := Harness.timedLoop_pureOp f d n ⟨t + d s, f s⟩
  rw [Harness.run_def_ok name (Harness.pureOp f d) n ⟨t, s⟩ ⟨t + d s, f s⟩ _
    (by omega) hwarm hloop]
  simp only [Except.ok.injEq, Harness.BenchmarkResult.mk.injEq,
    Harness.World.mk.injEq, Prod.mk.injEq]
  have hiter : ∀ i : Nat, f^[i] (f s) = f^[i + 1] s := fun i =>
    (Function.iterate_succ_apply f i s).symm
  simp only [hiter]
  refine ⟨⟨trivial, by ring⟩, by ring, trivial⟩

/-- C2 witness: one timed iteration of an operation costing 1 ms per call:
elapsed is 1 ms (the timed call), not 2 ms (warm-up plus timed call), while
the wall clock advanced 2 ms in total. -/
theorem run_elapsed_excludes_warmup_witness :
    Harness.run "w" (Harness.pureOp (fun u : Unit => u) (fun _ => (1 : ℚ))) 1
        ⟨0, ()⟩
      = .ok ({ name := "w", elapsedTime := 1 }, ⟨0 + (1 + 1), ()⟩) := by
  have h := (run_elapsed_excludes_warmup "w" (fun u : Unit => u)
    (fun _ => (1 : ℚ)) 1 0 () (by omega)).1
  simpa [Finset.sum_range_one] using h

/-- C3: `compare` classifies each entry's ratio to the baseline with
inclusive upper bounds 1.3 / 2.0 / 3.0 / 5.0; in particular a candidate of
elapsed 130 against a baseline of elapsed 100 (ratio exactly 1.30) is
"excellent", and a candidate of elapsed 130.001 is "good". -/
theorem compare_bucket_thresholds :
    (∀ q : ℚ,
      (q ≤ 13 / 10 → Harness.ratingBucket q = "excellent") ∧
      (13 / 10 < q → q ≤ 2 → Harness.ratingBucket q = "good") ∧
      (2 < q → q ≤ 3 → Harness.ratingBucket q = "fair") ∧
      (3 < q → q ≤ 5 → Harness.ratingBucket q = "poor") ∧
      (5 < q → Harness.ratingBucket q = "very poor")) ∧
    Harness.compare [{ name := "baseline", elapsedTime := 100 },
        { name := "candidate", elapsedTime := 130 }]
      = .ok [{ name := "baseline", elapsedTime := 100,
               bucket := "excellent", note := none },
             { name := "candidate", elapsedTime := 130,
               bucket := "excellent", note := some (.slower 30) }] ∧
    Harness.compare [{ name := "baseline", elapsedTime := 100 },
        { name := "candidate", elapsedTime := 130001 / 1000 }]
      = .ok [{ name := "baseline", elapsedTime := 100,
               bucket := "excellent", note := none },
             { name := "candidate", elapsedTime := 130001 / 1000,
               bucket := "good", note := some (.slower (30001 / 1000)) }] := by
  refine ⟨?_, ?_, ?_⟩
  · intro q
    unfold Harness.ratingBucket
    refine ⟨?_, ?_, ?_, ?_, ?_⟩
    · intro h1; rw [if_pos h1]
    · intro h1 h2
      rw [if_neg (by linarith), if_pos h2]
    · intro h1 h2
      rw [if_neg (by linarith), if_neg (by linarith), if_pos h2]
    · intro h1 h2
      rw [if_neg (by linarith), if_neg (by linarith), if_neg (by linarith),
        if_pos h2]
    · intro h1
      rw [if_neg (by linarith), if_neg (by linarith), if_neg (by linarith),
        if_neg (by linarith)]
  · norm_num [Harness.compare, Harness.ratingBucket, Harness.percentNote]
  · norm_num [Harness.compare, Harness.ratingBucket, Harness.percentNote]

/-- C3 witness: the bucket characterization applied at ratio 13/10. -/
theorem compare_bucket_thresholds_witness :
    Harness.ratingBucket (13 / 10) = "excellent" :=
  (compare_bucket_thresholds.1 (13 / 10)).1 (by norm_num)

/-- C4: for every n ≥ 1, if the operation throws during the warm-up call or
during the timed loop, `run` propagates that exact error wrapped as an
`OperationFailure` and produces no `BenchmarkResult`. -/
theorem run_propagates_op_error {σ ε : Type} (name : String)
    (op : Harness.World σ → Except ε (Harness.World σ)) (n : Nat)
    (w : Harness.World σ) (e : ε) (hn : 1 ≤ n)
    (hthrow : op w = .error e ∨
      ∃ w1, op w = .ok w1 ∧ Harness.timedLoop op n w1 = .error e) :
    Harness.run name op n w = .error (.operationFailure e) ∧
    ∀ res, Harness.run name op n w ≠ .ok res := by
  have hrun : Harness.run name op n w = .error (.operationFailure e) := by
    rcases hthrow with hwarm | ⟨w1, hwarm, hloop⟩
    · exact Harness.run_def_warmfail name op n w e (by omega) hwarm
    · exact Harness.run_def_loopfail name op n w w1 e (by omega) hwarm hloop
  refine ⟨hrun, ?_⟩
  intro res hok
  rw [hrun] at hok
  exact Except.noConfusion hok

/-- C4 witness: an operation that throws "boom" on its first (warm-up)
call makes `run` return exactly `OperationFailure "boom"` and no result. -/
theorem run_propagates_op_error_witness :
    Harness.run "w" (Harness.throwOp "boom") 1 (⟨0, ()⟩ : Harness.World Unit)
        = .error (.operationFailure "boom") ∧
    ∀ res, Harness.run "w" (Harness.throwOp "boom") 1
        (⟨0, ()⟩ : Harness.World Unit) ≠ .ok res :=
  run_propagates_op_error "w" (Harness.throwOp "boom") 1 ⟨0, ()⟩ "boom"
    (by omega) (Or.inl rfl)

/-- C5: if the operation never moves the timestamp source backwards (the
clock is monotonically non-decreasing), every completed `run` returns a
`BenchmarkResult` with elapsedTime ≥ 0. -/
theorem run_elapsed_nonneg {σ ε : Type} (name : String)
    (op : Harness.World σ → Except ε (Harness.World σ)) (n : Nat)
    (w : Harness.World σ) (r : Harness.BenchmarkResult) (w2 : Harness.World σ)
    (hmono : ∀ u u1, op u = .ok u1 → u.time ≤ u1.time)
    (h : Harness.run name op n w = .ok (r, w2)) :
    0 ≤ r.elapsedTime := by
  unfold Harness.run at h
  by_cases hn : n < 1
  · rw [if_pos hn] at h
    exact Except.noConfusion h
  · rw [if_neg hn] at h
    cases hwarm : op w with
    | error e => rw [hwarm] at h; exact Except.noConfusion h
    | ok w1 =>
      rw [hwarm] at h
      simp only [] at h
      cases hloop : Harness.timedLoop op n w1 with
      | error e => rw [hloop] at h; exact Except.noConfusion h
      | ok w3 =>
        rw [hloop] at h
        injection h with h1
        have hr : r = { name := name, elapsedTime := w3.time - w1.time } :=
          (congrArg Prod.fst h1).symm
        rw [hr]
        have := Harness.timedLoop_time_mono op hmono n w1 w3 hloop
        simp only []
        linarith

/-- C5 witness: the identity operation keeps time unchanged; with n = 1 the
elapsed time is 0 ≥ 0. -/
theorem run_elapsed_nonneg_witness :
    Harness.run "w" Harness.idOp 1 (⟨0, ()⟩ : Harness.World Unit)
        = .ok ({ name := "w", elapsedTime := 0 }, ⟨0, ()⟩) ∧
    (0 : ℚ) ≤ ({ name := "w", elapsedTime := 0 } :
        Harness.BenchmarkResult).elapsedTime := by
  have hrun : Harness.run "w" Harness.idOp 1 (⟨0, ()⟩ : Harness.World Unit)
      = .ok ({ name := "w", elapsedTime := 0 }, ⟨0, ()⟩) := by
    simp only [Harness.run, Harness.idOp, Harness.timedLoop, Except.bind]
    norm_num
  refine ⟨hrun, run_elapsed_nonneg "w" Harness.idOp 1 ⟨0, ()⟩ _ _ ?_ hrun⟩
  intro u u1 h
  injection h with h1
  rw [h1]

/-- C6: `compare` on a single result always reports the bucket "excellent"
and no percentage note, since the baseline's ratio to itself is 1. -/
theorem compare_single_baseline (r : Harness.BenchmarkResult) :
    Harness.compare [r]
      = .ok [{ name := r.name, elapsedTime := r.elapsedTime,
               bucket := "excellent", note := none }] := by
  norm_num [Harness.compare, Harness.ratingBucket]

/-- C7: an iteration count < 1 signals `InvalidConfiguration` immediately —
the outcome does not depend on the operation at all, so no timing and no
invocation has happened — and `compare` on the empty sequence signals
`InvalidConfiguration` producing no report lines. -/
theorem invalid_configuration_fails_fast {σ ε : Type} (name : String)
    (op op2 : Harness.World σ → Except ε (Harness.World σ)) (n : Nat)
    (w : Harness.World σ) (hn : n < 1) :
    (Harness.run name op n w = .error .invalidConfiguration ∧
     Harness.run name op n w = Harness.run name op2 n w) ∧
    Harness.compare [] = .error .invalidConfiguration := by
  refine ⟨⟨?_, ?_⟩, rfl⟩
  · unfold Harness.run
    rw [if_pos hn]
  · unfold Harness.run
    rw [if_pos hn, if_pos hn]

/-- C7 witness: `run` with 0 iterations on two different operations — one
of which throws — both fail with `InvalidConfiguration` before anything
executes, and `compare []` fails the same way. -/
theorem invalid_configuration_fails_fast_witness :
    (Harness.run "w" Harness.idOp 0 (⟨0, ()⟩ : Harness.World Unit)
        = .error .invalidConfiguration ∧
     Harness.run "w" Harness.idOp 0 (⟨0, ()⟩ : Harness.World Unit)
        = Harness.run "w" (Harness.throwOp ()) 0 ⟨0, ()⟩) ∧
    Harness.compare [] = .error .invalidConfiguration :=
  invalid_configuration_fails_fast "w" Harness.idOp (Harness.throwOp ()) 0
    ⟨0, ()⟩ (by omega)

/-- C8: `addNumbers` from `src/unnamed/part_002` applies JavaScript's
untyped `+`: on any two strings it concatenates, so the second measured
loop's call `addNumbers('5', '10')` returns the string "510", not the
number 15. -/
theorem addNumbers_concatenates_strings :
    (∀ s t : String, JS.addNumbers (.str s) (.str t) = .str (s ++ t)) ∧
    JS.addNumbers (.str "5") (.str "10") = .str "510" ∧
    JS.addNumbers (.str "5") (.str "10") ≠ .num 15 := by
  refine ⟨fun s t => rfl, by decide, by decide⟩

/-- C9: in section 5 of the comprehensive demo, the loose-equality loop and
the strict-equality loop over the same mixed array agree: the only element
loosely or strictly equal to 0 is the number 0 at index 0, which the
5000000-iteration loops hit 50 times, so looseCount = strictCount = 50. -/
theorem loose_strict_counts_agree :
    Part005.looseCount = 50 ∧ Part005.strictCount = 50 ∧
    Part005.looseCount = Part005.strictCount :=
  ⟨Part005.looseCount_eq, Part005.strictCount_eq,
    by rw [Part005.looseCount_eq, Part005.strictCount_eq]⟩

/-- C10: the timed monomorphic loop of `optimization.ts` ends with
sum1 = 10^14 = 10000000², every partial sum is k² ≤ 10^14 < 2^53 (so each
double-precision addition is exact), and the result is a pure function of
the loop, independent of timing. -/
theorem monomorphic_sum_closed_form :
    Optimization.monoLoop 10000000 = 10 ^ 14 ∧
    (10 : Nat) ^ 14 = 10000000 ^ 2 ∧
    (∀ k : Nat, Optimization.monoLoop k = k ^ 2) ∧
    (∀ k : Nat, k ≤ 10000000 → Optimization.monoLoop k < 2 ^ 53) := by
  refine ⟨?_, by norm_num, Optimization.monoLoop_sq, ?_⟩
  · rw [Optimization.monoLoop_sq]
    norm_num
  · intro k hk
    rw [Optimization.monoLoop_sq]
    calc k ^ 2 ≤ 10000000 ^ 2 := Nat.pow_le_pow_left hk 2
      _ < 2 ^ 53 := by norm_num

/-- C10 witness: the bound applied at the full iteration count. -/
theorem monomorphic_sum_closed_form_witness :
    Optimization.monoLoop 10000000 < 2 ^ 53 :=
  monomorphic_sum_closed_form.2.2.2 10000000 (by norm_num)

/-- C6 witness: a concrete single-result comparison. -/
theorem compare_single_baseline_witness :
    Harness.compare [{ name := "only", elapsedTime := 5 }]
      = .ok [{ name := "only", elapsedTime := 5,
               bucket := "excellent", note := none }] :=
  compare_single_baseline { name := "only", elapsedTime := 5 }

/-- C8 witness: the general string-concatenation clause applied to the
call site's arguments. -/
theorem addNumbers_concatenates_strings_witness :
    JS.addNumbers (.str "5") (.str "10") = .str ("5" ++ "10") :=
  addNumbers_concatenates_strings.1 "5" "10"
